import Mathlib

/-!
# Verification of the ERC-1155 ledger core (`src/contracts/erc1155/src/erc1155.rs`)

Shallow embedding of the `Erc1155` contract.  Addresses and 256-bit words are
modelled as `Nat`; the null account is `0`.  The unchecked `U256` addition in
the source (`to_balance + value`, alloy `U256` operator `+`) compiles to a
wrapping addition in release builds, so it is modelled as addition modulo
`2 ^ 256`.  The checked subtraction path (guarded by `from_balance < value`)
never underflows, so plain `Nat` subtraction is faithful there.

Each mutating operation takes the ambient caller (`msg::sender()`) as an
explicit first argument, and returns both the `Result` value and the storage
state as left by the Rust function (`&mut self`): for `_update_batch` the state
returned alongside an error retains the writes of the pairs processed before
the failing one, exactly as the in-place loop in the source does.
-/

/-- `2 ^ 256`, the modulus of `U256` arithmetic. -/
def U256MOD : Nat := 2 ^ 256

/-- Structured errors of the contract (`Erc1155Error` in the source), with the
payload fields of the corresponding `sol!` error declarations. -/
inductive Erc1155Error where
  | InsufficientBalance (sender balance needed id : Nat)
  | InvalidReceiver (receiver : Nat)
  | InvalidApprover (approver : Nat)
  | InvalidOperator (operator : Nat)
  | InvalidArrayLength (idsLength valuesLength : Nat)
  | MissingApprovalForAll (operator owner : Nat)
deriving DecidableEq, Repr

/-- Events emitted through `evm::log` in the source. -/
inductive Erc1155Event where
  | TransferSingle (operator from_ to_ id value : Nat)
  | TransferBatch (operator from_ to_ : Nat) (ids values : List Nat)
  | ApprovalForAll (account operator : Nat) (approved : Bool)
deriving DecidableEq, Repr

/-- Contract storage (the `sol_storage!` block) plus the ordered log of emitted
events.  `balances` is keyed id-then-account, `operatorApprovals` is keyed
owner-then-operator; absent entries read as `0` / `false`, which the total
functions encode directly. -/
structure Erc1155State where
  balances : Nat → Nat → Nat
  operatorApprovals : Nat → Nat → Bool
  events : List Erc1155Event

/-- Write one balance cell (`self.balances.setter(id).setter(account).set(v)`). -/
def setBalance (s : Erc1155State) (id account v : Nat) : Erc1155State :=
  { s with balances := fun i a => if i = id ∧ a = account then v else s.balances i a }

/-- Write one approval cell (`owner_approvals.insert(operator, approved)`). -/
def setApproval (s : Erc1155State) (owner operator : Nat) (b : Bool) : Erc1155State :=
  { s with operatorApprovals :=
      fun o p => if o = owner ∧ p = operator then b else s.operatorApprovals o p }

/-- Append an event to the log (`evm::log(...)`). -/
def pushEvent (s : Erc1155State) (e : Erc1155Event) : Erc1155State :=
  { s with events := s.events ++ [e] }

/-- `balance_of`: stored balance, zero for absent entries. -/
def balance_of (s : Erc1155State) (account id : Nat) : Nat :=
  s.balances id account

/-- `is_approved_for_all`: stored flag, false for absent entries. -/
def is_approved_for_all (s : Erc1155State) (account operator : Nat) : Bool :=
  s.operatorApprovals account operator

/-- `balance_of_batch`: fails with `InvalidArrayLength(ids.len(), accounts.len())`
on a length mismatch, otherwise maps `balance_of` over the index-wise zip of the
two inputs. -/
def balance_of_batch (s : Erc1155State) (accounts ids : List Nat) :
    Except Erc1155Error (List Nat) :=
  if accounts.length ≠ ids.length then
    .error (.InvalidArrayLength ids.length accounts.length)
  else
    .ok (List.zipWith (fun acc id => balance_of s acc id) accounts ids)

/-- `set_approval_for_all` (caller is the owner): rejects self-approval before
touching state, otherwise stores the flag and emits `ApprovalForAll`. -/
def set_approval_for_all (caller : Nat) (operator : Nat) (approved : Bool)
    (s : Erc1155State) : Option Erc1155Error × Erc1155State :=
  if caller = operator then
    (some (.InvalidOperator operator), s)
  else
    (none, pushEvent (setApproval s caller operator approved)
      (.ApprovalForAll caller operator approved))

/-- The debit half of the update primitive: skipped for a null `from_`;
otherwise checks `from_balance < value` and, on success, writes
`from_balance - value`. -/
def updFrom (from_ id value : Nat) (s : Erc1155State) :
    Except Erc1155Error Erc1155State :=
  if from_ = 0 then .ok s
  else
    let fb := s.balances id from_
    if fb < value then .error (.InsufficientBalance from_ fb value id)
    else .ok (setBalance s id from_ (fb - value))

/-- The credit half of the update primitive: skipped for a null `to`; otherwise
writes `to_balance + value`, which wraps modulo `2 ^ 256` (unchecked alloy
`U256` addition in a release build). -/
def updTo (to_ id value : Nat) (s : Erc1155State) : Erc1155State :=
  if to_ = 0 then s
  else setBalance s id to_ ((s.balances id to_ + value) % U256MOD)

/-- `_update_single`: debit `from_`, credit `to`, emit `TransferSingle`. -/
def _update_single (caller from_ to_ id value : Nat) (s : Erc1155State) :
    Option Erc1155Error × Erc1155State :=
  match updFrom from_ id value s with
  | .error e => (some e, s)
  | .ok s1 =>
      (none, pushEvent (updTo to_ id value s1)
        (.TransferSingle caller from_ to_ id value))

/-- The loop body of `_update_batch` over the index-wise pairs: the state
returned with an error retains the in-place writes of all earlier pairs. -/
def updatePairs (from_ to_ : Nat) (pairs : List (Nat × Nat)) (s : Erc1155State) :
    Option Erc1155Error × Erc1155State :=
  match pairs with
  | [] => (none, s)
  | (id, value) :: rest =>
      match updFrom from_ id value s with
      | .error e => (some e, s)
      | .ok s1 => updatePairs from_ to_ rest (updTo to_ id value s1)

/-- `_update_batch`: process the pairs in input order, then emit one
`TransferBatch` event for the whole batch. -/
def _update_batch (caller from_ to_ : Nat) (ids values : List Nat)
    (s : Erc1155State) : Option Erc1155Error × Erc1155State :=
  match updatePairs from_ to_ (List.zip ids values) s with
  | (some e, s1) => (some e, s1)
  | (none, s1) => (none, pushEvent s1 (.TransferBatch caller from_ to_ ids values))

/-- `safe_transfer_from`: authorization check, null-receiver check, then the
single-pair update. -/
def safe_transfer_from (caller from_ to_ id value : Nat) (s : Erc1155State) :
    Option Erc1155Error × Erc1155State :=
  if from_ ≠ caller ∧ is_approved_for_all s from_ caller = false then
    (some (.MissingApprovalForAll caller from_), s)
  else if to_ = 0 then
    (some (.InvalidReceiver 0), s)
  else
    _update_single caller from_ to_ id value s

/-- `safe_batch_transfer_from`: authorization check, null-receiver check,
length check, then the batch update. -/
def safe_batch_transfer_from (caller from_ to_ : Nat) (ids values : List Nat)
    (s : Erc1155State) : Option Erc1155Error × Erc1155State :=
  if from_ ≠ caller ∧ is_approved_for_all s from_ caller = false then
    (some (.MissingApprovalForAll caller from_), s)
  else if to_ = 0 then
    (some (.InvalidReceiver 0), s)
  else if ids.length ≠ values.length then
    (some (.InvalidArrayLength ids.length values.length), s)
  else
    _update_batch caller from_ to_ ids values s

/-- Modelled from the spec: the hosting environment reverts every storage write
of a public call that returns an error ("the host execution model discards all
writes on failure", §5); this is not code of the repository but the execution
model its `#[public]` entry points rely on.  `observable s r` is the
externally observable post-call state of a call on pre-state `s` returning `r`. -/
def observable (s : Erc1155State) (r : Option Erc1155Error × Erc1155State) :
    Erc1155State :=
  match r with
  | (some _, _) => s
  | (none, s1) => s1

/-- Sum of the balances of token `id` over a finite set of accounts. -/
def rowSum (S : Finset Nat) (s : Erc1155State) (id : Nat) : Nat :=
  ∑ a ∈ S, s.balances id a

/-! ## Basic lemmas about the state helpers -/

theorem setBalance_balances (s : Erc1155State) (id account v i a : Nat) :
    (setBalance s id account v).balances i a =
      if i = id ∧ a = account then v else s.balances i a := rfl

theorem pushEvent_balances (s : Erc1155State) (e : Erc1155Event) :
    (pushEvent s e).balances = s.balances := rfl

/-- `updFrom` can only fail with `InsufficientBalance`, carrying the sender,
its current balance, the requested value and the id. -/
theorem updFrom_error_shape (from_ id value : Nat) (s : Erc1155State)
    (e : Erc1155Error) (h : updFrom from_ id value s = .error e) :
    e = .InsufficientBalance from_ (s.balances id from_) value id := by
  by_cases h0 : from_ = 0 <;> by_cases hlt : s.balances id from_ < value <;>
    simp_all [updFrom]

/-- The loop of `_update_batch` can only fail with `InsufficientBalance`. -/
theorem updatePairs_error_shape (from_ to_ : Nat) :
    ∀ (pairs : List (Nat × Nat)) (s : Erc1155State) (e : Erc1155Error),
    (updatePairs from_ to_ pairs s).1 = some e →
    ∃ sd b n i, e = .InsufficientBalance sd b n i := by
  intro pairs
  induction pairs with
  | nil => intro s e h; exact absurd h (by simp [updatePairs])
  | cons p rest ih =>
      intro s e h
      obtain ⟨id, value⟩ := p
      unfold updatePairs at h
      cases hf : updFrom from_ id value s with
      | error e0 =>
          rw [hf] at h
          simp only at h
          obtain rfl : e0 = e := by exact Option.some.injEq _ _ ▸ (by simpa using h)
          exact ⟨_, _, _, _, updFrom_error_shape _ _ _ _ _ hf⟩
      | ok s1 =>
          rw [hf] at h
          exact ih (updTo to_ id value s1) e h

/-! ## Concrete example states -/

/-- Account `1` holds 5 units of token `7` and 10 units of token `1`;
no approvals are stored. -/
def exState : Erc1155State :=
  { balances := fun i a =>
      if i = 7 ∧ a = 1 then 5 else if i = 1 ∧ a = 1 then 10 else 0
    operatorApprovals := fun _ _ => false
    events := [] }

/-! ## C1 — atomic batch failure -/

/-- C1: for every batch transfer that fails, the externally observable
post-call balance of every `(id, account)` pair equals its pre-call value:
the host reverts all writes of a failed call (see `observable`), so a failure
partway through `_update_batch`'s in-place loop leaves no observable partial
state change. -/
theorem c1_failed_batch_is_atomic (s : Erc1155State)
    (caller from_ to_ : Nat) (ids values : List Nat) (e : Erc1155Error)
    (hfail : (safe_batch_transfer_from caller from_ to_ ids values s).1 = some e) :
    ∀ id a,
      (observable s (safe_batch_transfer_from caller from_ to_ ids values s)).balances id a
        = s.balances id a := by
  intro id a
  rcases hr : safe_batch_transfer_from caller from_ to_ ids values s with ⟨r1, s1⟩
  rw [hr] at hfail
  simp only at hfail
  subst hfail
  rfl

/-- Witness for C1: a five-pair batch on token `1` from a balance of 10 with
values `[2, 3, 7, 1, 1]` fails on the third pair (`10 - 2 - 3 = 5 < 7`), and
the observable balances of sender and receiver are their pre-call values. -/
theorem c1_failed_batch_is_atomic_witness :
    (safe_batch_transfer_from 1 1 2 [1, 1, 1, 1, 1] [2, 3, 7, 1, 1] exState).1
        = some (.InsufficientBalance 1 5 7 1) ∧
    (observable exState
        (safe_batch_transfer_from 1 1 2 [1, 1, 1, 1, 1] [2, 3, 7, 1, 1] exState)).balances 1 1
        = exState.balances 1 1 ∧
    (observable exState
        (safe_batch_transfer_from 1 1 2 [1, 1, 1, 1, 1] [2, 3, 7, 1, 1] exState)).balances 1 2
        = exState.balances 1 2 :=
  ⟨by decide,
   c1_failed_batch_is_atomic exState 1 1 2 [1, 1, 1, 1, 1] [2, 3, 7, 1, 1]
     (.InsufficientBalance 1 5 7 1) (by decide) 1 1,
   c1_failed_batch_is_atomic exState 1 1 2 [1, 1, 1, 1, 1] [2, 3, 7, 1, 1]
     (.InsufficientBalance 1 5 7 1) (by decide) 1 2⟩

/-! ## C8 — null receiver rejected after authorization, before any mutation -/

/-- C8: once the authorization check passes, both transfer entry points reject
a null `to` with `InvalidReceiver(0)`, returning the pre-call state untouched
(the check precedes every balance write). -/
theorem c8_null_receiver_rejected (s : Erc1155State)
    (caller from_ id value : Nat) (ids values : List Nat)
    (hauth : from_ = caller ∨ is_approved_for_all s from_ caller = true) :
    safe_transfer_from caller from_ 0 id value s = (some (.InvalidReceiver 0), s) ∧
    safe_batch_transfer_from caller from_ 0 ids values s = (some (.InvalidReceiver 0), s) := by
  have hcond : ¬ (from_ ≠ caller ∧ is_approved_for_all s from_ caller = false) := by
    rcases hauth with h | h <;> simp [h]
  constructor <;> simp [safe_transfer_from, safe_batch_transfer_from, hcond]

/-- Witness for C8: the owner itself (caller = from = 1) sending to the null
account gets `InvalidReceiver(0)` and an unchanged state, for both entry
points. -/
theorem c8_null_receiver_rejected_witness :
    safe_transfer_from 1 1 0 7 2 exState = (some (.InvalidReceiver 0), exState) ∧
    safe_batch_transfer_from 1 1 0 [7] [2] exState = (some (.InvalidReceiver 0), exState) :=
  c8_null_receiver_rejected exState 1 1 7 2 [7] [2] (Or.inl rfl)

/-! ## C10 — the public entry points cannot mint -/

/-- C10: for a non-null caller with no stored approval from the null account,
transfers with `from = 0` fail at the authorization check with
`MissingApprovalForAll(caller, 0)` and change nothing; the non-authorization-
checked internal primitive, by contrast, accepts `from = 0` (mint) for any
inputs. -/
theorem c10_public_mint_unauthorized (s : Erc1155State)
    (caller to_ id value : Nat) (ids values : List Nat)
    (hc : caller ≠ 0) (hap : is_approved_for_all s 0 caller = false) :
    safe_transfer_from caller 0 to_ id value s = (some (.MissingApprovalForAll caller 0), s) ∧
    safe_batch_transfer_from caller 0 to_ ids values s
        = (some (.MissingApprovalForAll caller 0), s) ∧
    (_update_single caller 0 to_ id value s).1 = none := by
  have hcond : (0 : Nat) ≠ caller ∧ is_approved_for_all s 0 caller = false :=
    ⟨fun h => hc h.symm, hap⟩
  refine ⟨by simp [safe_transfer_from, hcond], by simp [safe_batch_transfer_from, hcond], ?_⟩
  simp [_update_single, updFrom]

/-- Witness for C10: caller `2` (no approvals stored) cannot transfer from the
null account, while the internal primitive happily mints. -/
theorem c10_public_mint_unauthorized_witness :
    safe_transfer_from 2 0 3 7 4 exState = (some (.MissingApprovalForAll 2 0), exState) ∧
    safe_batch_transfer_from 2 0 3 [7] [4] exState
        = (some (.MissingApprovalForAll 2 0), exState) ∧
    (_update_single 2 0 3 7 4 exState).1 = none :=
  c10_public_mint_unauthorized exState 2 3 7 4 [7] [4] (by decide) (by decide)

/-! ## C4 — authorization checked first -/

/-- `_update_single` never produces `MissingApprovalForAll`. -/
theorem update_single_ne_missing (caller from_ to_ id value : Nat)
    (s : Erc1155State) (a b : Nat) :
    (_update_single caller from_ to_ id value s).1 ≠ some (.MissingApprovalForAll a b) := by
  unfold _update_single
  cases hf : updFrom from_ id value s with
  | error e0 =>
      have he := updFrom_error_shape from_ id value s e0 hf
      subst he
      simp
  | ok s1 => simp

/-- `_update_batch` never produces `MissingApprovalForAll`. -/
theorem update_batch_ne_missing (caller from_ to_ : Nat) (ids values : List Nat)
    (s : Erc1155State) (a b : Nat) :
    (_update_batch caller from_ to_ ids values s).1 ≠ some (.MissingApprovalForAll a b) := by
  unfold _update_batch
  rcases hp : updatePairs from_ to_ (List.zip ids values) s with ⟨r1, s1⟩
  cases r1 with
  | none => simp
  | some e =>
      obtain ⟨sd, bb, n, i, he⟩ := updatePairs_error_shape from_ to_ _ s e (by rw [hp])
      subst he
      simp

/-- C4: both transfer entry points fail with `MissingApprovalForAll(caller,
from)` exactly when the caller is neither `from` nor an approved operator of
`from`; since the check comes first, an unauthorized caller gets this error
even when `to` is null or the batch lengths mismatch. -/
theorem c4_missing_approval_iff_unauthorized (s : Erc1155State)
    (caller from_ to_ id value : Nat) (ids values : List Nat) :
    ((safe_transfer_from caller from_ to_ id value s).1
        = some (.MissingApprovalForAll caller from_) ↔
      (from_ ≠ caller ∧ is_approved_for_all s from_ caller = false)) ∧
    ((safe_batch_transfer_from caller from_ to_ ids values s).1
        = some (.MissingApprovalForAll caller from_) ↔
      (from_ ≠ caller ∧ is_approved_for_all s from_ caller = false)) := by
  constructor
  · unfold safe_transfer_from
    split_ifs with hcond ht
    · simp [hcond]
    · simp [hcond]
    · simp [hcond, update_single_ne_missing caller from_ to_ id value s caller from_]
  · unfold safe_batch_transfer_from
    split_ifs with hcond ht hl
    · simp [hcond]
    · simp [hcond]
    · simp [hcond]
    · simp [hcond, update_batch_ne_missing caller from_ to_ ids values s caller from_]

/-! ## C5 — sequential (not snapshot-isolated) batch processing -/

/-- C5: in a two-pair batch on the same token id, the `InsufficientBalance`
check of the second pair reads the sender balance left by the first pair: it
fails with `balance = initial - v1` and `needed = v2` whenever
`initial - v1 < v2 ≤ initial`, carrying sender, balance, needed and id. -/
theorem c5_batch_duplicate_id_sequential (s : Erc1155State)
    (caller from_ to_ id v1 v2 : Nat)
    (hauth : from_ = caller ∨ is_approved_for_all s from_ caller = true)
    (hf0 : from_ ≠ 0) (ht0 : to_ ≠ 0) (hne : to_ ≠ from_)
    (h1 : v1 ≤ s.balances id from_) (h2 : s.balances id from_ - v1 < v2) :
    (safe_batch_transfer_from caller from_ to_ [id, id] [v1, v2] s).1
      = some (.InsufficientBalance from_ (s.balances id from_ - v1) v2 id) := by
  have hcond : ¬ (from_ ≠ caller ∧ is_approved_for_all s from_ caller = false) := by
    rcases hauth with h | h <;> simp [h]
  have h1' : ¬ (s.balances id from_ < v1) := Nat.not_lt.mpr h1
  simp [safe_batch_transfer_from, hcond, ht0, _update_batch, updatePairs, updFrom,
    updTo, setBalance, hf0, hne, Ne.symm hne, h1', h2]

/-- Witness for C5: the spec scenario — balance 5 of token 7, batch values
`[3, 4]` — fails on the second pair with `balance = 2`, `needed = 4`. -/
theorem c5_batch_duplicate_id_sequential_witness :
    (safe_batch_transfer_from 1 1 2 [7, 7] [3, 4] exState).1
      = some (.InsufficientBalance 1 2 4 7) :=
  (c5_batch_duplicate_id_sequential exState 1 1 2 7 3 4 (Or.inl rfl)
    (by decide) (by decide) (by decide) (by decide) (by decide)).trans (by decide)

/-! ## C6 — self-approval rejected, approvals stored and event always emitted -/

/-- C6: `set_approval_for_all` (caller is the owner) fails with
`InvalidOperator(operator)` exactly when `operator = owner`, in which case the
state is untouched; otherwise it returns success, stores `approved` under
`(owner, operator)` and nothing else, leaves balances alone, and appends an
`ApprovalForAll(owner, operator, approved)` event even when the stored flag
already had that value. -/
theorem c6_set_approval_for_all_spec (s : Erc1155State) (caller operator : Nat)
    (approved : Bool) :
    ((set_approval_for_all caller operator approved s).1
        = some (.InvalidOperator operator) ↔ caller = operator) ∧
    (caller = operator → (set_approval_for_all caller operator approved s).2 = s) ∧
    (caller ≠ operator →
      (set_approval_for_all caller operator approved s).1 = none ∧
      (∀ o p, ((set_approval_for_all caller operator approved s).2).operatorApprovals o p
          = if o = caller ∧ p = operator then approved else s.operatorApprovals o p) ∧
      ((set_approval_for_all caller operator approved s).2).events
          = s.events ++ [.ApprovalForAll caller operator approved] ∧
      (∀ i a, ((set_approval_for_all caller operator approved s).2).balances i a
          = s.balances i a)) := by
  by_cases h : caller = operator <;>
    simp [set_approval_for_all, h, pushEvent, setApproval]

/-- Witness for C6: self-approval by account 4 fails and changes nothing;
account 1 approving operator 2 succeeds, stores the flag and logs the event. -/
theorem c6_set_approval_for_all_spec_witness :
    (set_approval_for_all 4 4 true exState).1 = some (.InvalidOperator 4) ∧
    (set_approval_for_all 4 4 true exState).2 = exState ∧
    (set_approval_for_all 1 2 true exState).1 = none ∧
    ((set_approval_for_all 1 2 true exState).2).operatorApprovals 1 2 = true ∧
    ((set_approval_for_all 1 2 true exState).2).events
        = exState.events ++ [.ApprovalForAll 1 2 true] :=
  ⟨(c6_set_approval_for_all_spec exState 4 4 true).1.mpr rfl,
   (c6_set_approval_for_all_spec exState 4 4 true).2.1 rfl,
   ((c6_set_approval_for_all_spec exState 1 2 true).2.2 (by decide)).1,
   (((c6_set_approval_for_all_spec exState 1 2 true).2.2 (by decide)).2.1 1 2).trans
     (by decide),
   ((c6_set_approval_for_all_spec exState 1 2 true).2.2 (by decide)).2.2.1⟩

/-! ## C7 — batch balance query -/

/-- Indexing a `zipWith` within bounds indexes both inputs. -/
theorem zipWith_getD (f : Nat → Nat → Nat) :
    ∀ (l1 l2 : List Nat) (i : Nat), i < l1.length → i < l2.length →
    (List.zipWith f l1 l2).getD i 0 = f (l1.getD i 0) (l2.getD i 0) := by
  intro l1
  induction l1 with
  | nil => intro l2 i h1 _; exact absurd h1 (by simp)
  | cons x xs ih =>
      intro l2 i h1 h2
      cases l2 with
      | nil => exact absurd h2 (by simp)
      | cons y ys =>
          cases i with
          | zero => rfl
          | succ n =>
              simp only [List.zipWith_cons_cons, List.getD_cons_succ]
              exact ih ys n (by simpa using h1) (by simpa using h2)

/-- C7: `balance_of_batch` fails with `InvalidArrayLength(ids.len,
accounts.len)` exactly on a length mismatch; on equal lengths it succeeds with
a list of the input length whose i-th element is `balance_of(accounts[i],
ids[i])`, in input order (and, being a pure read, has no side effects). -/
theorem c7_balance_of_batch_spec (s : Erc1155State) (accounts ids : List Nat) :
    (accounts.length ≠ ids.length →
      balance_of_batch s accounts ids
        = .error (.InvalidArrayLength ids.length accounts.length)) ∧
    (accounts.length = ids.length →
      (balance_of_batch s accounts ids).toOption.isSome = true) ∧
    (∀ l, balance_of_batch s accounts ids = .ok l →
      l.length = accounts.length ∧
      ∀ i, i < accounts.length →
        l.getD i 0 = balance_of s (accounts.getD i 0) (ids.getD i 0)) := by
  refine ⟨fun h => by simp [balance_of_batch, h], fun h => by simp [balance_of_batch, h, Except.toOption], ?_⟩
  intro l hl
  by_cases h : accounts.length = ids.length
  · simp only [balance_of_batch, h, ne_eq, not_true_eq_false, if_false] at hl
    have hl' : List.zipWith (fun acc id => balance_of s acc id) accounts ids = l := by
      simpa using hl
    subst hl'
    refine ⟨by simp [List.length_zipWith, h], fun i hi => ?_⟩
    exact zipWith_getD _ accounts ids i hi (h ▸ hi)
  · simp [balance_of_batch, h] at hl

/-- Witness for C7: `balanceOfBatch([10,20],[7])` fails with lengths `(1, 2)`;
`balanceOfBatch([1,2],[7,1])` succeeds with `[5, 0]`, pairing by index. -/
theorem c7_balance_of_batch_spec_witness :
    balance_of_batch exState [10, 20] [7] = .error (.InvalidArrayLength 1 2) ∧
    (balance_of_batch exState [1, 2] [7, 1]).toOption.isSome = true ∧
    ([5, 0] : List Nat).length = 2 ∧
    ([5, 0] : List Nat).getD 0 0 = balance_of exState 1 7 :=
  ⟨(c7_balance_of_batch_spec exState [10, 20] [7]).1 (by decide),
   (c7_balance_of_batch_spec exState [1, 2] [7, 1]).2.1 rfl,
   ((c7_balance_of_batch_spec exState [1, 2] [7, 1]).2.2 [5, 0] rfl).1,
   ((c7_balance_of_batch_spec exState [1, 2] [7, 1]).2.2 [5, 0] rfl).2 0
     (by decide)⟩

/-! ## C9 — zero-value transfers -/

/-- Rewriting a balance cell with its current value changes no balance. -/
theorem setBalance_self (s : Erc1155State) (id account : Nat) :
    ∀ i a, (setBalance s id account (s.balances id account)).balances i a
      = s.balances i a := by
  intro i a
  by_cases h : i = id ∧ a = account
  · obtain ⟨rfl, rfl⟩ := h
    simp [setBalance]
  · simp [setBalance, h]

/-- `setBalance` never touches the event log. -/
theorem setBalance_events (s : Erc1155State) (id account v : Nat) :
    (setBalance s id account v).events = s.events := rfl

/-- `updTo` never touches the event log. -/
theorem updTo_events (to_ id v : Nat) (s : Erc1155State) :
    (updTo to_ id v s).events = s.events := by
  unfold updTo
  split <;> rfl

/-- Counterexample to C9 as stated: a `value = 0` call by an unauthorized
caller (caller 2, owner 1, no approval stored) does not return success — it
fails with `MissingApprovalForAll`. -/
theorem c9_counterexample_unauthorized_zero_value :
    (safe_transfer_from 2 1 3 7 0 exState).1 = some (.MissingApprovalForAll 2 1) ∧
    ¬ (safe_transfer_from 2 1 3 7 0 exState).1 = none := by
  decide

/-- C9 (amended): a `value = 0` transfer whose caller is authorized and whose
receiver is non-null (and whose stored receiver balance is a valid `U256`
word) succeeds, leaves every balance unchanged, and still appends a
`TransferSingle` event with value `0`. -/
theorem c9_zero_value_transfer_succeeds (s : Erc1155State) (caller from_ to_ id : Nat)
    (hauth : from_ = caller ∨ is_approved_for_all s from_ caller = true)
    (ht0 : to_ ≠ 0) (hwf : s.balances id to_ < U256MOD) :
    (safe_transfer_from caller from_ to_ id 0 s).1 = none ∧
    (∀ i a, ((safe_transfer_from caller from_ to_ id 0 s).2).balances i a
      = s.balances i a) ∧
    ((safe_transfer_from caller from_ to_ id 0 s).2).events
      = s.events ++ [.TransferSingle caller from_ to_ id 0] := by
  have hcond : ¬ (from_ ≠ caller ∧ is_approved_for_all s from_ caller = false) := by
    rcases hauth with h | h <;> simp [h]
  by_cases hf0 : from_ = 0
  · have hres : safe_transfer_from caller from_ to_ id 0 s
        = (none, pushEvent (updTo to_ id 0 s) (.TransferSingle caller from_ to_ id 0)) := by
      unfold safe_transfer_from
      rw [if_neg hcond, if_neg ht0]
      simp [_update_single, updFrom, hf0]
    rw [hres]
    refine ⟨rfl, ?_, by simp [pushEvent, updTo_events, setBalance_events]⟩
    intro i a
    simpa [pushEvent, updTo, ht0, Nat.mod_eq_of_lt hwf] using setBalance_self s id to_ i a
  · have hres : safe_transfer_from caller from_ to_ id 0 s
        = (none, pushEvent (updTo to_ id 0 (setBalance s id from_ (s.balances id from_)))
            (.TransferSingle caller from_ to_ id 0)) := by
      unfold safe_transfer_from
      rw [if_neg hcond, if_neg ht0]
      simp [_update_single, updFrom, hf0]
    rw [hres]
    refine ⟨rfl, ?_, by simp [pushEvent, updTo_events, setBalance_events]⟩
    intro i a
    have hsb := setBalance_self s id from_
    have hto : (setBalance s id from_ (s.balances id from_)).balances id to_
        = s.balances id to_ := hsb id to_
    simp only [pushEvent, updTo, if_neg ht0, hto, Nat.add_zero, Nat.mod_eq_of_lt hwf]
    by_cases hca : i = id ∧ a = to_
    · obtain ⟨rfl, rfl⟩ := hca
      simp [setBalance]
    · simp only [setBalance, hca, if_false]
      exact hsb i a

/-- Witness for C9 (amended): the owner itself transfers zero units of token 7
to account 2: success, balances untouched, event logged. -/
theorem c9_zero_value_transfer_succeeds_witness :
    (safe_transfer_from 1 1 2 7 0 exState).1 = none ∧
    ((safe_transfer_from 1 1 2 7 0 exState).2).balances 7 1 = exState.balances 7 1 ∧
    ((safe_transfer_from 1 1 2 7 0 exState).2).events
      = exState.events ++ [.TransferSingle 1 1 2 7 0] :=
  ⟨(c9_zero_value_transfer_succeeds exState 1 1 2 7 (Or.inl rfl) (by decide) (by decide)).1,
   (c9_zero_value_transfer_succeeds exState 1 1 2 7 (Or.inl rfl) (by decide) (by decide)).2.1 7 1,
   (c9_zero_value_transfer_succeeds exState 1 1 2 7 (Or.inl rfl) (by decide) (by decide)).2.2⟩

/-! ## C3 — overflow is not rejected (code bug) -/

/-- Account 1 holds one unit and account 2 holds the maximal `U256` balance of
token 1; no approvals are stored. -/
def overflowState : Erc1155State :=
  { balances := fun i a =>
      if i = 1 ∧ a = 1 then 1 else if i = 1 ∧ a = 2 then U256MOD - 1 else 0
    operatorApprovals := fun _ _ => false
    events := [] }

/-- C3 (evaluation at the failing input): the recipient holds `2^256 - 1`
units, one more unit is transferred, and the call succeeds storing the
wrapped balance `0` — the unchecked `U256` addition on the credit path does
not detect the overflow, contradicting the claimed reject-on-overflow
semantics. -/
theorem c3_overflow_wraps_not_rejected :
    overflowState.balances 1 2 = U256MOD - 1 ∧
    (safe_transfer_from 1 1 2 1 1 overflowState).1 = none ∧
    ((safe_transfer_from 1 1 2 1 1 overflowState).2).balances 1 2 = 0 := by
  refine ⟨by decide, by decide, by decide⟩

/-! ## C2 — conservation of per-id balance sums -/

/-- `pushEvent` never touches balances, so row sums are unchanged. -/
theorem rowSum_pushEvent (S : Finset Nat) (s : Erc1155State) (e : Erc1155Event)
    (id : Nat) : rowSum S (pushEvent s e) id = rowSum S s id := rfl

/-- Summing a row with one cell overwritten: the new value replaces the old
contribution of that cell. -/
theorem sum_ite_update (S : Finset Nat) (f : Nat → Nat) (k v : Nat) (hk : k ∈ S) :
    (∑ a ∈ S, if a = k then v else f a) = v + ∑ a ∈ S.erase k, f a := by
  rw [← Finset.add_sum_erase S (fun a => if a = k then v else f a) hk]
  congr 1
  · simp
  · refine Finset.sum_congr rfl fun a ha => ?_
    simp [Finset.ne_of_mem_erase ha]

/-- Rewriting two distinct cells of a row conserves its sum when the two new
values add up to the two old ones. -/
theorem sum_two_cell_shift (S : Finset Nat) (f : Nat → Nat) (fr to_ w1 w2 : Nat)
    (hfr : fr ∈ S) (hto : to_ ∈ S) (hne : to_ ≠ fr)
    (hbal : w2 + w1 = f to_ + f fr) :
    (∑ a ∈ S, if a = to_ then w2 else if a = fr then w1 else f a) = ∑ a ∈ S, f a := by
  have hfr' : fr ∈ S.erase to_ := Finset.mem_erase.mpr ⟨fun h => hne h.symm, hfr⟩
  rw [sum_ite_update S (fun a => if a = fr then w1 else f a) to_ w2 hto,
    sum_ite_update (S.erase to_) f fr w1 hfr',
    ← Finset.add_sum_erase S f hto, ← Finset.add_sum_erase (S.erase to_) f hfr']
  omega

/-- One `(id, value)` pair of the update primitive conserves the sum of any
row over a finite account set containing both non-null endpoints, provided the
pre-state sum of the touched row is below `2^256` (so the unchecked credit
cannot wrap). -/
theorem pair_update_conserves (S : Finset Nat) (from_ to_ id0 : Nat)
    (hfS : from_ ∈ S) (htS : to_ ∈ S) (hf0 : from_ ≠ 0) (ht0 : to_ ≠ 0)
    (id v : Nat) (s s1 : Erc1155State)
    (hok : updFrom from_ id v s = .ok s1)
    (hlt : rowSum S s id0 < U256MOD) :
    rowSum S (updTo to_ id v s1) id0 = rowSum S s id0 := by
  simp only [updFrom, if_neg hf0] at hok
  by_cases hv : s.balances id from_ < v
  · rw [if_pos hv] at hok
    exact absurd hok (by simp)
  · rw [if_neg hv] at hok
    injection hok with hs1
    subst hs1
    have hv' : v ≤ s.balances id from_ := Nat.not_lt.mp hv
    unfold updTo
    rw [if_neg ht0]
    by_cases hid : id = id0
    · subst hid
      by_cases htf : to_ = from_
      · subst htf
        have hfb_le : s.balances id to_ ≤ rowSum S s id :=
          Finset.single_le_sum (f := fun a => s.balances id a)
            (fun i _ => Nat.zero_le _) htS
        have hval : (s.balances id to_ - v + v) % U256MOD = s.balances id to_ := by
          rw [Nat.sub_add_cancel hv']
          exact Nat.mod_eq_of_lt (lt_of_le_of_lt hfb_le hlt)
        unfold rowSum
        refine Finset.sum_congr rfl fun a _ => ?_
        by_cases hafr : a = to_
        · subst hafr
          simp [setBalance, hval]
        · simp [setBalance, hafr]
      · have htf' : from_ ≠ to_ := fun h => htf h.symm
        have hfr' : from_ ∈ S.erase to_ := Finset.mem_erase.mpr ⟨htf', hfS⟩
        have htb_fb : s.balances id to_ + s.balances id from_ ≤ rowSum S s id := by
          have h1 : rowSum S s id
              = s.balances id to_ + ∑ a ∈ S.erase to_, s.balances id a := by
            unfold rowSum
            rw [← Finset.add_sum_erase S _ htS]
          have h2 : s.balances id from_ ≤ ∑ a ∈ S.erase to_, s.balances id a :=
            Finset.single_le_sum (fun i _ => Nat.zero_le _) hfr'
          omega
        have hread : (setBalance s id from_ (s.balances id from_ - v)).balances id to_
            = s.balances id to_ := by
          simp [setBalance, htf]
        have hwv : (s.balances id to_ + v) % U256MOD = s.balances id to_ + v :=
          Nat.mod_eq_of_lt (by omega)
        have hrow : ∀ a,
            (setBalance (setBalance s id from_ (s.balances id from_ - v)) id to_
              (((setBalance s id from_ (s.balances id from_ - v)).balances id to_ + v)
                % U256MOD)).balances id a
            = if a = to_ then s.balances id to_ + v
              else if a = from_ then s.balances id from_ - v else s.balances id a := by
          intro a
          rw [hread, hwv]
          by_cases h1 : a = to_
          · subst h1
            simp [setBalance]
          · by_cases h2 : a = from_
            · subst h2
              simp [setBalance, h1, htf']
            · simp [setBalance, h1, h2]
        unfold rowSum
        refine (Finset.sum_congr rfl fun a _ => hrow a).trans ?_
        refine sum_two_cell_shift S (fun a => s.balances id a) from_ to_
          (s.balances id from_ - v) (s.balances id to_ + v) hfS htS htf ?_
        show s.balances id to_ + v + (s.balances id from_ - v)
          = s.balances id to_ + s.balances id from_
        omega
    · have hid' : id0 ≠ id := fun h => hid h.symm
      unfold rowSum
      refine Finset.sum_congr rfl fun a _ => ?_
      simp [setBalance, hid']

/-- The batch loop conserves, for every id, the row sums over any account set
containing both non-null endpoints, whenever it succeeds and the pre-state
row sum is below `2^256`. -/
theorem updatePairs_conserves (S : Finset Nat) (from_ to_ id0 : Nat)
    (hfS : from_ ∈ S) (htS : to_ ∈ S) (hf0 : from_ ≠ 0) (ht0 : to_ ≠ 0) :
    ∀ (pairs : List (Nat × Nat)) (s : Erc1155State),
      (updatePairs from_ to_ pairs s).1 = none →
      rowSum S s id0 < U256MOD →
      rowSum S (updatePairs from_ to_ pairs s).2 id0 = rowSum S s id0 := by
  intro pairs
  induction pairs with
  | nil => intro s _ _; rfl
  | cons p rest ih =>
      intro s hnone hlt
      obtain ⟨id, v⟩ := p
      simp only [updatePairs] at hnone ⊢
      cases hf : updFrom from_ id v s with
      | error e => simp [hf] at hnone
      | ok s1 =>
          rw [hf] at hnone
          have hnone' : (updatePairs from_ to_ rest (updTo to_ id v s1)).1 = none := hnone
          have hstep := pair_update_conserves S from_ to_ id0 hfS htS hf0 ht0
            id v s s1 hf hlt
          have hlt' : rowSum S (updTo to_ id v s1) id0 < U256MOD := by
            rw [hstep]; exact hlt
          show rowSum S (updatePairs from_ to_ rest (updTo to_ id v s1)).2 id0
            = rowSum S s id0
          rw [ih (updTo to_ id v s1) hnone' hlt', hstep]

/-- C2 (amended): a successful transfer with non-null `from` and `to` — single
or batch — conserves, for every token id, the sum of balances over any finite
set of accounts containing both endpoints, provided that pre-call sum is below
`2^256`; this proviso is forced by the unchecked wrapping credit exhibited in
the counterexample (an overflowing recipient balance destroys `2^256` units). -/
theorem c2_transfer_conserves_row_sums (S : Finset Nat) (s : Erc1155State)
    (caller from_ to_ : Nat) (hfS : from_ ∈ S) (htS : to_ ∈ S) (hf0 : from_ ≠ 0) :
    (∀ id value id0,
      (safe_transfer_from caller from_ to_ id value s).1 = none →
      rowSum S s id0 < U256MOD →
      rowSum S ((safe_transfer_from caller from_ to_ id value s).2) id0
        = rowSum S s id0) ∧
    (∀ ids values id0,
      (safe_batch_transfer_from caller from_ to_ ids values s).1 = none →
      rowSum S s id0 < U256MOD →
      rowSum S ((safe_batch_transfer_from caller from_ to_ ids values s).2) id0
        = rowSum S s id0) := by
  constructor
  · intro id value id0 hnone hlt
    unfold safe_transfer_from at hnone ⊢
    by_cases hcond : from_ ≠ caller ∧ is_approved_for_all s from_ caller = false
    · rw [if_pos hcond] at hnone
      exact absurd hnone (by simp)
    · rw [if_neg hcond] at hnone ⊢
      by_cases ht0 : to_ = 0
      · rw [if_pos ht0] at hnone
        exact absurd hnone (by simp)
      · rw [if_neg ht0] at hnone ⊢
        unfold _update_single at hnone ⊢
        cases hf : updFrom from_ id value s with
        | error e => simp [hf] at hnone
        | ok s1 =>
            show rowSum S (pushEvent (updTo to_ id value s1) _) id0 = rowSum S s id0
            rw [rowSum_pushEvent]
            exact pair_update_conserves S from_ to_ id0 hfS htS hf0 ht0
              id value s s1 hf hlt
  · intro ids values id0 hnone hlt
    unfold safe_batch_transfer_from at hnone ⊢
    by_cases hcond : from_ ≠ caller ∧ is_approved_for_all s from_ caller = false
    · rw [if_pos hcond] at hnone
      exact absurd hnone (by simp)
    · rw [if_neg hcond] at hnone ⊢
      by_cases ht0 : to_ = 0
      · rw [if_pos ht0] at hnone
        exact absurd hnone (by simp)
      · rw [if_neg ht0] at hnone ⊢
        by_cases hlen : ids.length ≠ values.length
        · rw [if_pos hlen] at hnone
          exact absurd hnone (by simp)
        · rw [if_neg hlen] at hnone ⊢
          unfold _update_batch at hnone ⊢
          rcases hp : updatePairs from_ to_ (List.zip ids values) s with ⟨r1, s1⟩
          rw [hp] at hnone
          cases r1 with
          | some e =>
              exact absurd (hnone : (some e : Option Erc1155Error) = none) (by simp)
          | none =>
              show rowSum S (pushEvent s1 _) id0 = rowSum S s id0
              rw [rowSum_pushEvent]
              have := updatePairs_conserves S from_ to_ id0 hfS htS hf0 ht0
                (List.zip ids values) s (by rw [hp]) hlt
              rw [hp] at this
              exact this

/-- Two accounts each hold the maximal `U256` balance of token 1; no approvals
are stored. -/
def maxPairState : Erc1155State :=
  { balances := fun i a => if i = 1 ∧ (a = 1 ∨ a = 2) then U256MOD - 1 else 0
    operatorApprovals := fun _ _ => false
    events := [] }

/-- Counterexample to C2 as stated: account 1 transfers its whole maximal
balance of token 1 to account 2 (both endpoints non-null); the call succeeds,
the recipient balance wraps, and the sum over the two (only) funded accounts
drops from `2 * (2^256 - 1)` to `2^256 - 2`. -/
theorem c2_counterexample_overflow_breaks_conservation :
    (safe_transfer_from 1 1 2 1 (U256MOD - 1) maxPairState).1 = none ∧
    ¬ rowSum {1, 2} ((safe_transfer_from 1 1 2 1 (U256MOD - 1) maxPairState).2) 1
        = rowSum {1, 2} maxPairState 1 := by
  decide

/-- Witness for C2 (amended): moving 3 units of token 7 from account 1 to
account 2 in `exState` — as a single call and as a one-pair batch — keeps the
row sum over `{1, 2}` at its pre-call value. -/
theorem c2_transfer_conserves_row_sums_witness :
    rowSum {1, 2} ((safe_transfer_from 1 1 2 7 3 exState).2) 7
        = rowSum {1, 2} exState 7 ∧
    rowSum {1, 2} ((safe_batch_transfer_from 1 1 2 [7] [3] exState).2) 7
        = rowSum {1, 2} exState 7 :=
  ⟨(c2_transfer_conserves_row_sums {1, 2} exState 1 1 2 (by decide) (by decide)
      (by decide)).1 7 3 7 (by decide) (by decide),
   (c2_transfer_conserves_row_sums {1, 2} exState 1 1 2 (by decide) (by decide)
      (by decide)).2 [7] [3] 7 (by decide) (by decide)⟩
